import Mathlib

/-!
Shallow embedding of the mitmproxy addon script
src/mitmproxy/rewrite_to_local/main.py.

The script installs a request hook into mitmproxy.  Python strings are
modelled as lists of characters (`List Char`), so that slicing, prefix
tests and case folding are ordinary list operations.  The in-place
mutation of the flow's request object is modelled by state passing: the
hook takes the request and returns the updated request together with the
list of log records it emitted through ctx.log.info.
-/

namespace RewriteToLocal

/-- A Python string, modelled as its list of characters. -/
abbrev Str := List Char

/-- A header map as mitmproxy stores it: an ordered list of key/value
pairs; key lookup is case-insensitive, duplicates are allowed. -/
abbrev Headers := List (Str × Str)

/-- STAGING_HOST (main.py line 11): the os.getenv fallback value, which
is also the configuration the claims fix. -/
def STAGING_HOST : Str := "staging.api.example.com".data

/-- LOCAL_ADDRESS (main.py line 12): the os.getenv fallback value. -/
def LOCAL_ADDRESS : Str := "127.0.0.1".data

/-- LOCAL_PORT (main.py line 13): the os.getenv fallback value. -/
def LOCAL_PORT : Nat := 5000

/-- The hardcoded path constant MATCH_PREFIX of main.py line 15. -/
def MATCH_PATH : Str := "/stg/v1/ubah-izin/".data

/-- The fields of a mitmproxy request the script reads or writes.  As in
mitmproxy, `path` is everything after the authority, so it includes the
query string. -/
structure Request where
  method : Str
  scheme : Str
  host : Str
  port : Nat
  path : Str
  headers : Headers
  body : Str
deriving DecidableEq, Repr

/-- Case-insensitive header-key comparison: mitmproxy's header multidict
compares keys after case folding. -/
def keyEqb (a b : Str) : Bool :=
  decide (a.map Char.toLower = b.map Char.toLower)

/-- Header lookup: the value of the first field whose key matches
case-insensitively. -/
def getHeader (hs : Headers) (k : Str) : Option Str :=
  (hs.find? fun kv => keyEqb kv.1 k).map Prod.snd

/-- Drop every field whose key matches `k` case-insensitively. -/
def removeHeader (hs : Headers) (k : Str) : Headers :=
  hs.filter fun kv => !keyEqb kv.1 k

/-- Header assignment, as in mitmproxy's multidict set_all with a single
value: the first field with a matching key keeps its key spelling and
receives the new value, later fields with that key are removed, and when
no field matches the pair is appended. -/
def setHeader : Headers → Str → Str → Headers
  | [], k, v => [(k, v)]
  | kv :: rest, k, v =>
    if keyEqb kv.1 k then (kv.1, v) :: removeHeader rest k
    else kv :: setHeader rest k v

/-- mitmproxy's Request.pretty_host: the Host header value when one is
present, otherwise the URL host.  (Parsing an explicit port out of the
header's authority is not modelled; no claim involves one.) -/
def prettyHost (r : Request) : Str :=
  match getHeader r.headers "Host".data with
  | some v => v
  | none => r.host

/-- mitmproxy's Request.url: scheme://host[:port]path, where the port is
omitted when it is the default for the scheme. -/
def urlOf (r : Request) : Str :=
  r.scheme ++ "://".data ++ r.host ++
    (if (r.scheme = "http".data ∧ r.port = 80) ∨
        (r.scheme = "https".data ∧ r.port = 443) then []
     else ":".data ++ (Nat.repr r.port).data) ++ r.path

/-- One ctx.log.info record emitted by the script, plus the record the
spec's Engine emits when a hook raises. -/
inductive LogRecord where
  | rewritten (method url target : Str)
  | ignored (method host path : Str)
  | hookError (method : Str)
deriving DecidableEq, Repr

/-- Whether a log record is the rewritten-branch record. -/
def recIsRewrite : LogRecord → Bool
  | .rewritten _ _ _ => true
  | _ => false

/-- The match condition of main.py line 26:
req.pretty_host == STAGING_HOST and req.path.startswith(MATCH_PREFIX). -/
def ruleMatches (r : Request) : Bool :=
  decide (prettyHost r = STAGING_HOST) && decide (MATCH_PATH <+: r.path)

/-- The request hook of main.py lines 24-39.  On a match it trims the
path by len(MATCH_PREFIX)-1 characters, retargets host/port/scheme, sets
the Host header to STAGING_HOST and logs the rewrite (the logged URL is
read after the mutation, as in the script); otherwise it leaves the
request unchanged and logs that it was ignored. -/
def request (req : Request) : Request × List LogRecord :=
  if ruleMatches req then
    let trimmed := req.path.drop (MATCH_PATH.length - 1)
    let req' : Request :=
      { req with
        path := trimmed
        host := LOCAL_ADDRESS
        port := LOCAL_PORT
        scheme := "http".data
        headers := setHeader req.headers "Host".data STAGING_HOST }
    (req', [LogRecord.rewritten req'.method (urlOf req')
      ("http://".data ++ LOCAL_ADDRESS ++ ":".data ++
        (Nat.repr LOCAL_PORT).data ++ req'.path)])
  else
    (req, [LogRecord.ignored req.method (prettyHost req) req.path])

/-- Modelled from the spec: the Engine hook boundary of sections 4.3 and
7, which is not part of src/ (the script relies on the host proxy's hook
boundary).  A hook run either returns its result or raises a HookError,
represented by Option; the boundary catches the error, logs it, and
passes the request through unrewritten. -/
def engineOnRequest (hook : Request → Option (Request × List LogRecord))
    (r : Request) : Request × List LogRecord :=
  match hook r with
  | some res => res
  | none => (r, [LogRecord.hookError r.method])

/-- The query-string part of a combined path-and-query string: everything
from the first question mark on (empty when there is none). -/
def queryString (p : Str) : Str :=
  p.dropWhile fun c => c != '?'

end RewriteToLocal

namespace RewriteToLocal

/-! Helper lemmas. -/

theorem ruleMatches_iff (r : Request) :
    ruleMatches r = true ↔
      (prettyHost r = STAGING_HOST ∧ MATCH_PATH <+: r.path) := by
  simp [ruleMatches, Bool.and_eq_true, decide_eq_true_eq]

theorem matched_decomp (r : Request) (hm : ruleMatches r = true) :
    prettyHost r = STAGING_HOST ∧ ∃ t, r.path = MATCH_PATH ++ t := by
  have h := (ruleMatches_iff r).mp hm
  obtain ⟨t, ht⟩ := h.2
  exact ⟨h.1, t, ht.symm⟩

theorem request_matched_eq (r : Request) (hm : ruleMatches r = true) :
    (request r).1 =
      { r with
        path := r.path.drop (MATCH_PATH.length - 1)
        host := LOCAL_ADDRESS
        port := LOCAL_PORT
        scheme := "http".data
        headers := setHeader r.headers "Host".data STAGING_HOST } := by
  simp [request, hm]

theorem request_unmatched_eq (r : Request) (hm : ruleMatches r = false) :
    request r = (r, [LogRecord.ignored r.method (prettyHost r) r.path]) := by
  simp [request, hm]

theorem keyEqb_refl (k : Str) : keyEqb k k = true := by
  simp [keyEqb]

theorem getHeader_setHeader (hs : Headers) (k v : Str) :
    getHeader (setHeader hs k v) k = some v := by
  induction hs with
  | nil => simp [setHeader, getHeader, List.find?, keyEqb_refl]
  | cons kv rest ih =>
    cases h : keyEqb kv.1 k with
    | true => simp [setHeader, h, getHeader, List.find?]
    | false =>
      simp only [setHeader, h, Bool.false_eq_true, if_false]
      simp only [getHeader, List.find?, h] at ih ⊢
      exact ih

theorem removeHeader_idem (hs : Headers) (k : Str) :
    removeHeader (removeHeader hs k) k = removeHeader hs k := by
  simp [removeHeader, List.filter_filter]

theorem removeHeader_setHeader (hs : Headers) (k v : Str) :
    removeHeader (setHeader hs k v) k = removeHeader hs k := by
  induction hs with
  | nil => simp [setHeader, removeHeader, keyEqb_refl]
  | cons kv rest ih =>
    cases h : keyEqb kv.1 k with
    | true =>
      simp only [setHeader, h, if_true]
      simp only [removeHeader, List.filter, h, Bool.not_true] at ih ⊢
      simp [List.filter_filter]
    | false =>
      simp only [setHeader, h, Bool.false_eq_true, if_false]
      simp only [removeHeader, List.filter, h, Bool.not_false] at ih ⊢
      exact congrArg (kv :: ·) ih

theorem drop_trim_eq (t : List Char) :
    (MATCH_PATH ++ t).drop (MATCH_PATH.length - 1) = '/' :: t := rfl

theorem drop_full_eq (t : List Char) :
    (MATCH_PATH ++ t).drop MATCH_PATH.length = t := rfl

theorem queryString_trim (t : List Char) :
    queryString ('/' :: t) = queryString (MATCH_PATH ++ t) := rfl

/-! Concrete requests used as evaluation inputs. -/

/-- The end-to-end request of the spec's scenario:
GET http://staging.api.example.com/stg/v1/ubah-izin/apply. -/
def exStaging : Request :=
  { method := "GET".data
    scheme := "http".data
    host := "staging.api.example.com".data
    port := 80
    path := "/stg/v1/ubah-izin/apply".data
    headers := [("Host".data, "staging.api.example.com".data)]
    body := [] }

/-- The same request with the host spelled in upper case everywhere. -/
def exUpper : Request :=
  { exStaging with
    host := "STAGING.API.EXAMPLE.COM".data
    headers := [("Host".data, "STAGING.API.EXAMPLE.COM".data)] }

/-- A request for an unrelated host (and no Host header). -/
def exOther : Request :=
  { exStaging with
    host := "other.example.com".data
    headers := [] }

/-- An https request to the staging host. -/
def exHttps : Request :=
  { exStaging with scheme := "https".data, port := 443 }

/-- A matching request carrying a query string, an extra header and a
body. -/
def exExtra : Request :=
  { exStaging with
    path := "/stg/v1/ubah-izin/apply?x=1".data
    headers := [("Host".data, "staging.api.example.com".data),
                ("Accept".data, "application/json".data)]
    body := "payload".data }

/-- Same host and path as exStaging but a different method and body. -/
def exStagingPost : Request :=
  { exStaging with method := "POST".data, body := "payload".data }

/-! Claim theorems. -/

/-- C1: applying the request hook to
GET http://staging.api.example.com/stg/v1/ubah-izin/apply rewrites it to
GET http://127.0.0.1:5000/apply — path "/apply", host "127.0.0.1",
port 5000, scheme "http" — with the Host header set to
"staging.api.example.com". -/
theorem request_end_to_end_rewrite :
    (request exStaging).1.method = "GET".data ∧
    (request exStaging).1.path = "/apply".data ∧
    (request exStaging).1.host = "127.0.0.1".data ∧
    (request exStaging).1.port = 5000 ∧
    (request exStaging).1.scheme = "http".data ∧
    getHeader (request exStaging).1.headers "Host".data =
      some ("staging.api.example.com".data) := by
  decide

/-- C2 counterexample: a request whose host differs from the configured
match host only in letter case, and whose path carries the match path,
does not match — the hook ignores it and leaves it unchanged, refuting
the claim that host matching is case-insensitive. -/
theorem host_case_mismatch_not_matched :
    (prettyHost exUpper).map Char.toLower = STAGING_HOST.map Char.toLower ∧
    prettyHost exUpper ≠ STAGING_HOST ∧
    MATCH_PATH <+: exUpper.path ∧
    ruleMatches exUpper = false ∧
    request exUpper =
      (exUpper,
        [LogRecord.ignored exUpper.method (prettyHost exUpper) exUpper.path]) := by
  decide

/-- C2 (amended): matching is case-sensitive on both the host and the
path: the hook matches exactly when the request's pretty host equals the
configured match host as a literal string (no case folding) and the path
literally starts with the configured path constant. -/
theorem match_case_sensitive (r : Request) :
    ruleMatches r = true ↔
      (prettyHost r = STAGING_HOST ∧ MATCH_PATH <+: r.path) :=
  ruleMatches_iff r

/-- C3: for every matched request, the rewritten path is the original
path with its first len(MATCH_PREFIX)-1 characters removed: the match
path is stripped while its trailing slash is kept as the leading slash
of the result. -/
theorem matched_path_trim (r : Request) (hm : ruleMatches r = true) :
    (request r).1.path = r.path.drop (MATCH_PATH.length - 1) ∧
    (request r).1.path = '/' :: r.path.drop MATCH_PATH.length := by
  obtain ⟨-, t, ht⟩ := matched_decomp r hm
  rw [request_matched_eq r hm]
  refine ⟨rfl, ?_⟩
  rw [ht, drop_trim_eq, drop_full_eq]

/-- C3 witness: the scenario request matches and its path is rewritten
to "/apply". -/
theorem matched_path_trim_witness :
    ruleMatches exStaging = true ∧
    (request exStaging).1.path = "/apply".data :=
  ⟨by decide, ((matched_path_trim exStaging (by decide)).2).trans (by decide)⟩

/-- C4: for every matched request, the Host header after the rewrite
equals the request's original pretty host — which the match forces to be
the staging host, not the rewrite target host. -/
theorem matched_host_header_original_host (r : Request)
    (hm : ruleMatches r = true) :
    getHeader (request r).1.headers "Host".data = some (prettyHost r) := by
  rw [request_matched_eq r hm, (matched_decomp r hm).1]
  exact getHeader_setHeader r.headers _ _

/-- C4 witness: evaluated on the scenario request. -/
theorem matched_host_header_original_host_witness :
    ruleMatches exStaging = true ∧
    getHeader (request exStaging).1.headers "Host".data =
      some (prettyHost exStaging) :=
  ⟨by decide, matched_host_header_original_host exStaging (by decide)⟩

/-- C5: every request that matches no rule is passed through bit-for-bit
unchanged, and exactly one ignore log record is emitted. -/
theorem unmatched_passthrough (r : Request) (hm : ruleMatches r = false) :
    request r = (r, [LogRecord.ignored r.method (prettyHost r) r.path]) :=
  request_unmatched_eq r hm

/-- C5 witness: evaluated on a request for an unrelated host. -/
theorem unmatched_passthrough_witness :
    ruleMatches exOther = false ∧
    request exOther =
      (exOther,
        [LogRecord.ignored exOther.method (prettyHost exOther) exOther.path]) :=
  ⟨by decide, unmatched_passthrough exOther (by decide)⟩

/-- C6: when the hook raises, the Engine boundary catches the error,
logs it, and the request proceeds unrewritten to its original
destination — the error never propagates and the request is never
dropped.  (The boundary itself is modelled from the spec, sections 4.3
and 7.) -/
theorem engine_fail_open (hook : Request → Option (Request × List LogRecord))
    (r : Request) (hfail : hook r = none) :
    engineOnRequest hook r = (r, [LogRecord.hookError r.method]) := by
  simp [engineOnRequest, hfail]

/-- C6 witness: a hook that always raises, applied to the scenario
request. -/
theorem engine_fail_open_witness :
    (fun _ : Request => (none : Option (Request × List LogRecord))) exStaging
        = none ∧
    engineOnRequest (fun _ => none) exStaging =
      (exStaging, [LogRecord.hookError exStaging.method]) :=
  ⟨rfl, engine_fail_open (fun _ => none) exStaging rfl⟩

/-- C7: the hook emits exactly one log record per request, and that
record is the rewritten record precisely when the rule matches,
otherwise the ignored record. -/
theorem exactly_one_log_record (r : Request) :
    (request r).2.length = 1 ∧
    (request r).2.map recIsRewrite = [ruleMatches r] := by
  cases hm : ruleMatches r with
  | true => simp [request, hm, recIsRewrite]
  | false => simp [request, hm, recIsRewrite]

/-- C8: the rewrite decision is deterministic: two requests agreeing on
(pretty host, path) get the same match decision, and when matched the
same rewritten host, port, scheme, path and Host header value. -/
theorem rewrite_deterministic (r₁ r₂ : Request)
    (hh : prettyHost r₁ = prettyHost r₂) (hp : r₁.path = r₂.path) :
    ruleMatches r₁ = ruleMatches r₂ ∧
    (ruleMatches r₁ = true →
      ((request r₁).1.host = (request r₂).1.host ∧
       (request r₁).1.port = (request r₂).1.port ∧
       (request r₁).1.scheme = (request r₂).1.scheme ∧
       (request r₁).1.path = (request r₂).1.path ∧
       getHeader (request r₁).1.headers "Host".data =
         getHeader (request r₂).1.headers "Host".data)) := by
  have hmeq : ruleMatches r₁ = ruleMatches r₂ := by
    simp [ruleMatches, hh, hp]
  refine ⟨hmeq, fun hm => ?_⟩
  have hm₂ : ruleMatches r₂ = true := hmeq.symm.trans hm
  rw [request_matched_eq r₁ hm, request_matched_eq r₂ hm₂]
  refine ⟨rfl, rfl, rfl, ?_, ?_⟩
  · exact congrArg (List.drop (MATCH_PATH.length - 1)) hp
  · exact (getHeader_setHeader r₁.headers _ _).trans
      (getHeader_setHeader r₂.headers _ _).symm

/-- C8 witness: two concrete requests sharing (host, path) but differing
in method and body get the same match decision. -/
theorem rewrite_deterministic_witness :
    prettyHost exStaging = prettyHost exStagingPost ∧
    exStaging.path = exStagingPost.path ∧
    ruleMatches exStaging = ruleMatches exStagingPost :=
  ⟨by decide, by decide,
    (rewrite_deterministic exStaging exStagingPost (by decide) (by decide)).1⟩

/-- C9: every matched request is rewritten to scheme "http",
unconditionally, whatever its original scheme was. -/
theorem matched_scheme_http (r : Request) (hm : ruleMatches r = true) :
    (request r).1.scheme = "http".data := by
  rw [request_matched_eq r hm]

/-- C9 witness: an https request to the staging host is forwarded over
http. -/
theorem matched_scheme_http_witness :
    ruleMatches exHttps = true ∧ exHttps.scheme = "https".data ∧
    (request exHttps).1.scheme = "http".data :=
  ⟨by decide, by decide, matched_scheme_http exHttps (by decide)⟩

/-- C10: on a match the hook changes only path, host, port, scheme and
the Host header: the method, the body, the query-string part of the
path, and every header other than Host are unchanged. -/
theorem matched_frame_effect (r : Request) (hm : ruleMatches r = true) :
    (request r).1.method = r.method ∧
    (request r).1.body = r.body ∧
    queryString (request r).1.path = queryString r.path ∧
    removeHeader (request r).1.headers "Host".data =
      removeHeader r.headers "Host".data := by
  obtain ⟨-, t, ht⟩ := matched_decomp r hm
  rw [request_matched_eq r hm]
  refine ⟨rfl, rfl, ?_, ?_⟩
  · rw [ht, drop_trim_eq]
    exact queryString_trim t
  · exact removeHeader_setHeader r.headers _ _

/-- C10 witness: evaluated on a matching request with a query string, an
extra header and a body. -/
theorem matched_frame_effect_witness :
    ruleMatches exExtra = true ∧
    ((request exExtra).1.method = exExtra.method ∧
     (request exExtra).1.body = exExtra.body ∧
     queryString (request exExtra).1.path = queryString exExtra.path ∧
     removeHeader (request exExtra).1.headers "Host".data =
       removeHeader exExtra.headers "Host".data) :=
  ⟨by decide, matched_frame_effect exExtra (by decide)⟩

end RewriteToLocal
